import Mathlib

/-
Verification of the D0minaT0R subdomain-discovery tool (src/0dominator.py)
against its natural-language specification.

The Python program is shallowly embedded: external process invocations and
HTTP requests are modelled by oracles (functions from the attempt index to
the outcome the external world produces for that attempt), Python strings
are Lean strings (Lean 4.14 strings are lists of characters, matching
Python's sequence-of-code-points view for the ASCII data involved),
Python sets are Finsets, logging is a list of structured events carrying
exactly the data the source interpolates into its format strings, and
time.sleep has no observable effect in the model.  Python exceptions that
can escape a function are modelled with Except.
-/

/-- Constant MAX_RETRIES from the source (line 13). -/
def MAX_RETRIES : Nat := 3

/-- Constant BACKOFF_FACTOR from the source (line 14); the computed wait
time `BACKOFF_FACTOR ** attempt` is passed to time.sleep, which has no
observable effect in this model. -/
def BACKOFF_FACTOR : Nat := 2

/-- Python str.isspace characters relevant to str.strip with no argument
(ASCII whitespace; the data handled by the program is ASCII). -/
def pyIsSpace (c : Char) : Bool :=
  c = ' ' || c = '\t' || c = '\n' || c = '\r' || c = '\x0b' || c = '\x0c'

/-- Python str.strip() on a list of characters: remove leading and trailing
whitespace of the whole text (interior whitespace is untouched). -/
def pyStripL (s : List Char) : List Char :=
  ((s.dropWhile pyIsSpace).reverse.dropWhile pyIsSpace).reverse

/-- Python str.strip() on strings. -/
def pyStrip (s : String) : String :=
  ⟨pyStripL s.data⟩

/-- Python s.split(sep) for the one-character separator, on a list of
characters.  Python semantics: splitting the empty string yields one empty
chunk, and every occurrence of the separator produces a boundary, so the
result is always non-empty and chunks may be empty. -/
def pySplitNlL : List Char → List (List Char)
  | [] => [[]]
  | c :: rest =>
    match pySplitNlL rest with
    | [] => [[]]
    | l :: ls => if c = '\n' then [] :: l :: ls else (c :: l) :: ls

/-- Python s.split(sep) on strings for the newline separator. -/
def pySplitNl (s : String) : List String :=
  (pySplitNlL s.data).map String.mk

/-- Python sep.join for the newline separator, on lists of characters. -/
def pyJoinNlL : List (List Char) → List Char
  | [] => []
  | [l] => l
  | l :: ls => l ++ '\n' :: pyJoinNlL ls

/-- Python newline join on strings, as performed by the source's
subdomain_input construction. -/
def pyJoinNl (ls : List String) : String :=
  ⟨pyJoinNlL (ls.map String.data)⟩

/-- Python str.splitlines() on a list of characters, modelled for the line
boundaries occurring in the program's data: a newline, a carriage return,
or the two-character sequence carriage-return newline each end a line, and
a final line without a terminator is kept while a terminator at the very
end does not produce a trailing empty line. -/
def pySplitlinesL : List Char → List (List Char)
  | [] => []
  | '\r' :: '\n' :: rest => [] :: pySplitlinesL rest
  | '\n' :: rest => [] :: pySplitlinesL rest
  | '\r' :: rest => [] :: pySplitlinesL rest
  | c :: rest =>
    match pySplitlinesL rest with
    | [] => [[c]]
    | l :: ls => (c :: l) :: ls

/-- Python str.splitlines() on strings. -/
def pySplitlines (s : String) : List String :=
  (pySplitlinesL s.data).map String.mk

/-- Python string comparison on lists of characters: lexicographic by code
point, with a proper prefix smaller than the longer string.  This is the
order Python's sorted() applies to strings. -/
def pyStrLeL : List Char → List Char → Bool
  | [], _ => true
  | _ :: _, [] => false
  | a :: as, b :: bs => if a = b then pyStrLeL as bs else decide (a < b)

/-- Python string comparison on strings. -/
def pyStrLe (a b : String) : Bool :=
  pyStrLeL a.data b.data

/-- Python string comparison as a relation, used with insertion sort. -/
def pyLe (a b : String) : Prop :=
  pyStrLe a b = true

instance : DecidableRel pyLe :=
  fun a b => inferInstanceAs (Decidable (pyStrLe a b = true))

/-- Outcome of one external process run, as seen through the process
invocation interface: exit status plus captured standard output text. -/
structure ProcResult where
  exitCode : Nat
  stdout : String
deriving DecidableEq

/-- Structured log events, carrying exactly the data the source
interpolates into the corresponding logging format strings. -/
inductive LogEvent where
  | runningCommand (command : List String)
  | commandFailed (command : List String) (exitCode : Nat)
deriving DecidableEq

/-- Dominator.run_command (source lines 24 to 33): log the command, run the
process, and on exit status zero return stdout.strip().split chunks; a
nonzero exit status raises CalledProcessError, which is caught, logged with
the command and the error (which carries the status), and turned into the
empty list.  The function is total: no exception escapes it within the
process-invocation interface. -/
def run_command (command : List String) (pr : ProcResult) :
    List String × List LogEvent :=
  if pr.exitCode = 0 then
    (pySplitNl (pyStrip pr.stdout), [LogEvent.runningCommand command])
  else
    ([], [LogEvent.runningCommand command,
          LogEvent.commandFailed command pr.exitCode])

/-- Loop body of Dominator.run_tool_with_retries (source lines 35 to 46):
i is the zero-based index of the next attempt, fuel the number of attempts
still allowed.  The Python test `if result:` is list truthiness, that is,
non-emptiness.  Returns the result together with the number of attempts
actually performed. -/
def run_tool_with_retriesAux (command : List String)
    (procAttempts : Nat → ProcResult) (i fuel : Nat) :
    List String × Nat :=
  match fuel with
  | 0 => ([], i)
  | fuel + 1 =>
    let result := (run_command command (procAttempts i)).1
    if result ≠ [] then (result, i + 1)
    else run_tool_with_retriesAux command procAttempts (i + 1) fuel

/-- Dominator.run_tool_with_retries (source lines 35 to 46): up to
MAX_RETRIES attempts of run_command, returning the first truthy (non-empty)
result, or the empty list after exhausting all attempts.  The second
component counts the attempts performed. -/
def run_tool_with_retries (command : List String)
    (procAttempts : Nat → ProcResult) : List String × Nat :=
  run_tool_with_retriesAux command procAttempts 0 MAX_RETRIES

/-- Dominator.find_subdomains (source lines 48 to 62): run the three
process-based discovery tools, each through run_tool_with_retries, and
union every result list into self.subdomains (initial value subs0, the
empty set at the start of a run). -/
def find_subdomains (subs0 : Finset String)
    (subfinderAttempts assetfinderAttempts findomainAttempts :
      Nat → ProcResult) (domain : String) : Finset String :=
  let r1 := (run_tool_with_retries ["subfinder", "-d", domain, "-silent"]
    subfinderAttempts).1
  let r2 := (run_tool_with_retries ["assetfinder", "--subs-only", domain]
    assetfinderAttempts).1
  let r3 := (run_tool_with_retries ["findomain", "-t", domain, "-q"]
    findomainAttempts).1
  ((subs0 ∪ r1.toFinset) ∪ r2.toFinset) ∪ r3.toFinset

/-- One record of the crt.sh JSON response; name_value is none when the
record lacks that field (accessing it then raises KeyError in Python). -/
structure CrtshRecord where
  name_value : Option String
deriving DecidableEq

/-- Outcome of one HTTP attempt against crt.sh, as seen through the
requests interface: transportError covers every requests.RequestException
(network error, timeout, non-2xx status raised by raise_for_status, and a
body that is not JSON), ok carries the decoded record list. -/
inductive CrtshResponse where
  | transportError
  | ok (records : List CrtshRecord)

/-- Python exceptions that can escape the modelled functions to the top
level. -/
inductive PyError where
  | keyError
  | ioError
deriving DecidableEq

/-- The entry loop of Dominator.query_crtsh (source lines 75 to 77): for
each record, read entry of name_value (KeyError when absent, and that
exception is not a RequestException, so it escapes the except clause) and
union its newline-split names into self.subdomains. -/
def crtshAddRecords (subs : Finset String) :
    List CrtshRecord → Except PyError (Finset String)
  | [] => Except.ok subs
  | r :: rs =>
    match r.name_value with
    | none => Except.error PyError.keyError
    | some nv => crtshAddRecords (subs ∪ (pySplitNl nv).toFinset) rs

/-- Retry loop of Dominator.query_crtsh (source lines 70 to 87): i is the
zero-based attempt index, fuel the remaining attempts.  A transport error
is retried; a successful response is processed and returned immediately.
On success the method returns self.subdomains; after exhausting all
attempts it returns the empty set (self.subdomains keeps its prior value).
The result carries (self.subdomains afterwards, the returned set, the
number of HTTP attempts performed). -/
def query_crtshAux (crtshAttempts : Nat → CrtshResponse)
    (subs : Finset String) (i fuel : Nat) :
    Except PyError (Finset String × Finset String × Nat) :=
  match fuel with
  | 0 => Except.ok (subs, ∅, i)
  | fuel + 1 =>
    match crtshAttempts i with
    | CrtshResponse.transportError =>
      query_crtshAux crtshAttempts subs (i + 1) fuel
    | CrtshResponse.ok records =>
      match crtshAddRecords subs records with
      | Except.error e => Except.error e
      | Except.ok subs2 => Except.ok (subs2, subs2, i + 1)

/-- Dominator.query_crtsh (source lines 64 to 87). -/
def query_crtsh (crtshAttempts : Nat → CrtshResponse)
    (subs : Finset String) :
    Except PyError (Finset String × Finset String × Nat) :=
  query_crtshAux crtshAttempts subs 0 MAX_RETRIES

/-- Reflexivity of the Python string order. -/
theorem pyStrLeL_refl : ∀ l : List Char, pyStrLeL l l = true
  | [] => rfl
  | c :: cs => by simp [pyStrLeL, pyStrLeL_refl cs]

/-- Totality of the Python string order. -/
theorem pyStrLeL_total : ∀ a b : List Char,
    pyStrLeL a b = true ∨ pyStrLeL b a = true
  | [], _ => Or.inl rfl
  | _ :: _, [] => Or.inr rfl
  | a :: as, b :: bs => by
    by_cases hab : a = b
    · subst hab
      simpa [pyStrLeL] using pyStrLeL_total as bs
    · rcases lt_or_gt_of_ne hab with h | h
      · left
        simp [pyStrLeL, hab, h]
      · right
        simp [pyStrLeL, Ne.symm hab, h]

/-- Antisymmetry of the Python string order. -/
theorem pyStrLeL_antisymm : ∀ a b : List Char,
    pyStrLeL a b = true → pyStrLeL b a = true → a = b
  | [], [], _, _ => rfl
  | [], _ :: _, _, h2 => by simp [pyStrLeL] at h2
  | _ :: _, [], h1, _ => by simp [pyStrLeL] at h1
  | a :: as, b :: bs, h1, h2 => by
    by_cases hab : a = b
    · subst hab
      simp only [pyStrLeL, if_pos rfl] at h1 h2
      rw [pyStrLeL_antisymm as bs h1 h2]
    · simp [pyStrLeL, hab] at h1
      simp [pyStrLeL, Ne.symm hab] at h2
      exact absurd h2 (asymm h1)

/-- Transitivity of the Python string order. -/
theorem pyStrLeL_trans : ∀ a b c : List Char,
    pyStrLeL a b = true → pyStrLeL b c = true → pyStrLeL a c = true
  | [], _, _, _, _ => rfl
  | _ :: _, [], _, h1, _ => by simp [pyStrLeL] at h1
  | _ :: _, _ :: _, [], _, h2 => by simp [pyStrLeL] at h2
  | a :: as, b :: bs, c :: cs, h1, h2 => by
    by_cases hab : a = b <;> by_cases hbc : b = c
    · subst hab
      subst hbc
      simp only [pyStrLeL, if_pos rfl] at h1 h2 ⊢
      exact pyStrLeL_trans as bs cs h1 h2
    · subst hab
      simp [pyStrLeL, hbc] at h2
      simp [pyStrLeL, ne_of_lt h2, h2]
    · subst hbc
      simp [pyStrLeL, hab] at h1
      simp [pyStrLeL, hab, h1]
    · simp [pyStrLeL, hab] at h1
      simp [pyStrLeL, hbc] at h2
      have hac : a < c := lt_trans h1 h2
      simp [pyStrLeL, ne_of_lt hac, hac]

instance : IsTotal String pyLe :=
  ⟨fun a b => pyStrLeL_total a.data b.data⟩

instance : IsTrans String pyLe :=
  ⟨fun a b c => pyStrLeL_trans a.data b.data c.data⟩

instance : IsAntisymm String pyLe :=
  ⟨fun a b h1 h2 => by
    cases a
    cases b
    exact congrArg String.mk (pyStrLeL_antisymm _ _ h1 h2)⟩

/-- Python sorted() on a set of strings: the ascending list of its
elements under the code-point lexicographic order.  Defined on the
underlying multiset through insertion sort, which respects permutation
because sorted permutations agree. -/
def sortedList (s : Finset String) : List String :=
  Quotient.liftOn s.val (List.insertionSort pyLe) (fun l1 l2 h =>
    List.eq_of_perm_of_sorted
      (((List.perm_insertionSort pyLe l1).trans h).trans
        (List.perm_insertionSort pyLe l2).symm)
      (List.sorted_insertionSort pyLe l1) (List.sorted_insertionSort pyLe l2))

/-- Iteration order of a Python set is arbitrary but fixed; the model makes
the canonical choice of the sorted order when a set is iterated (only used
to build the newline-joined httpx payload, whose order no property depends
on). -/
def candidateList (subs : Finset String) : List String :=
  sortedList subs

/-- Dominator.check_live_domains (source lines 89 to 107): join
self.subdomains with newlines into one payload, invoke httpx exactly once
with that payload as stdin (the first component records the payload of
every httpx invocation performed), and on exit status zero union
stdout.splitlines() into self.live_domains (initially empty); a nonzero
exit raises CalledProcessError, which is caught and logged, leaving
self.live_domains empty.  There is no retry around this call. -/
def check_live_domains (subs : Finset String) (httpxResult : ProcResult) :
    List String × Finset String :=
  let subdomain_input := pyJoinNl (candidateList subs)
  if httpxResult.exitCode = 0 then
    ([subdomain_input], (pySplitlines httpxResult.stdout).toFinset)
  else
    ([subdomain_input], ∅)

/-- File content written by Dominator.save_live_domains: the loop writes
each entry followed by a newline, so the content is the concatenation of
entry-newline blocks in order. -/
def writeLinesL (ls : List (List Char)) : List Char :=
  ls.foldr (fun l acc => l ++ '\n' :: acc) []

/-- Dominator.save_live_domains (source lines 109 to 115): open
`domain`_live_domains.txt for writing (truncating any prior content) and
write the sorted live set one entry per line.  Opening or writing can
raise OSError (modelled by writeOk = false), which nothing catches; on
success the result is the file name and its full new content. -/
def save_live_domains (domain : String) (live : Finset String)
    (writeOk : Bool) : Except PyError (String × String) :=
  if writeOk then
    Except.ok (domain ++ "_live_domains.txt",
      ⟨writeLinesL ((sortedList live).map String.data)⟩)
  else Except.error PyError.ioError

/-- Everything the external world contributes to one run: per-attempt
outcomes for the three discovery tools and for crt.sh, the single httpx
outcome, and whether the output file can be opened and written. -/
structure RunEnv where
  subfinderAttempts : Nat → ProcResult
  assetfinderAttempts : Nat → ProcResult
  findomainAttempts : Nat → ProcResult
  crtshAttempts : Nat → CrtshResponse
  httpxResult : ProcResult
  writeOk : Bool

/-- The main function (source lines 118 to 132): find_subdomains, then
query_crtsh, then check_live_domains, then save_live_domains, on a
Dominator whose subdomain and live sets start empty.  An exception escaping
any stage aborts the run (nothing in main catches anything); a completed
run yields the written file's name and content. -/
def mainRun (env : RunEnv) (domain : String) :
    Except PyError (String × String) :=
  let subs1 := find_subdomains ∅ env.subfinderAttempts
    env.assetfinderAttempts env.findomainAttempts domain
  match query_crtsh env.crtshAttempts subs1 with
  | Except.error e => Except.error e
  | Except.ok (subs2, _, _) =>
    let live := (check_live_domains subs2 env.httpxResult).2
    save_live_domains domain live env.writeOk

/-- The merge step of the discovery fan-out (source lines 58 to 59): fold
self.subdomains.update over the per-tool result lists in order. -/
def mergeResults (results : List (List String)) : Finset String :=
  results.foldl (fun acc r => acc ∪ r.toFinset) ∅

/-- A crt.sh response the program can digest without an uncaught exception:
either a transport error, or a record list in which every record carries
the name_value field. -/
def CrtshWellShaped : CrtshResponse → Prop
  | CrtshResponse.transportError => True
  | CrtshResponse.ok records => ∀ r ∈ records, r.name_value ≠ none

/-- Decidable equality for Except values, used to evaluate run outcomes on
concrete inputs. -/
instance {ε α : Type} [DecidableEq ε] [DecidableEq α] :
    DecidableEq (Except ε α) := fun x y =>
  match x, y with
  | Except.error a, Except.error b =>
    if h : a = b then isTrue (by rw [h])
    else isFalse (fun hh => h (by injection hh))
  | Except.error _, Except.ok _ => isFalse (fun hh => Except.noConfusion hh)
  | Except.ok _, Except.error _ => isFalse (fun hh => Except.noConfusion hh)
  | Except.ok a, Except.ok b =>
    if h : a = b then isTrue (by rw [h])
    else isFalse (fun hh => h (by injection hh))

example : run_command ["subfinder"] ⟨0, "a\n\n b"⟩ =
    (["a", "", " b"], [LogEvent.runningCommand ["subfinder"]]) := by decide

example : run_tool_with_retries ["t"] (fun _ => ⟨0, ""⟩) = ([""], 1) := by
  decide

example : run_tool_with_retries ["t"] (fun _ => ⟨1, ""⟩) = ([], 3) := by
  decide

example : (check_live_domains {"b", "a"} ⟨0, "a\nb\n"⟩).2 = {"a", "b"} := by
  decide

example : save_live_domains "d.com" {"b", "a"} true =
    Except.ok ("d.com_live_domains.txt", "a\nb\n") := by
  have h : (⟨writeLinesL ((sortedList ({"b", "a"} : Finset String)).map
      String.data)⟩ : String) = "a\nb\n" := by decide
  simp [save_live_domains, h]

/-- Python split on a separator always yields at least one chunk. -/
theorem pySplitNlL_ne_nil : ∀ s : List Char, pySplitNlL s ≠ []
  | [] => by simp [pySplitNlL]
  | c :: rest => by
    simp only [pySplitNlL]
    cases pySplitNlL rest with
    | nil => simp
    | cons l ls => by_cases hc : c = '\n' <;> simp [hc]

/-- Prepending a character to the first chunk commutes with the join. -/
theorem pyJoinNlL_cons (c : Char) (l : List Char) (ls : List (List Char)) :
    pyJoinNlL ((c :: l) :: ls) = c :: pyJoinNlL (l :: ls) := by
  cases ls <;> rfl

/-- Joining the chunks of a newline split with newlines restores the
original text. -/
theorem pyJoinNlL_pySplitNlL : ∀ s : List Char, pyJoinNlL (pySplitNlL s) = s
  | [] => rfl
  | c :: rest => by
    have ih := pyJoinNlL_pySplitNlL rest
    cases h : pySplitNlL rest with
    | nil => exact absurd h (pySplitNlL_ne_nil rest)
    | cons l ls =>
      rw [h] at ih
      by_cases hc : c = '\n'
      · subst hc
        simp only [pySplitNlL, h, if_pos rfl]
        show '\n' :: pyJoinNlL (l :: ls) = '\n' :: rest
        rw [ih]
      · simp only [pySplitNlL, h, if_neg hc]
        rw [pyJoinNlL_cons, ih]

/-- No chunk of a newline split contains a newline. -/
theorem pySplitNlL_no_newline :
    ∀ s : List Char, ∀ l ∈ pySplitNlL s, '\n' ∉ l
  | [], l, hl => by
    simp [pySplitNlL] at hl
    simp [hl]
  | c :: rest, l, hl => by
    have ih := pySplitNlL_no_newline rest
    cases h : pySplitNlL rest with
    | nil => exact absurd h (pySplitNlL_ne_nil rest)
    | cons l0 ls =>
      simp only [pySplitNlL, h] at hl
      by_cases hc : c = '\n'
      · rw [if_pos hc] at hl
        rcases List.mem_cons.mp hl with h1 | h1
        · simp [h1]
        · exact ih l (h ▸ h1)
      · rw [if_neg hc] at hl
        rcases List.mem_cons.mp hl with h1 | h1
        · subst h1
          intro hmem
          rcases List.mem_cons.mp hmem with h2 | h2
          · exact hc h2.symm
          · exact ih l0 (h ▸ List.mem_cons_self l0 ls) h2
        · exact ih l (h ▸ List.mem_cons.mpr (Or.inr h1))

/-- Round trip between the character-list and string versions of mk. -/
theorem data_mk (l : List Char) : (String.mk l).data = l := rfl

/-- On exit status zero, run_command returns the stripped-and-split stdout,
which is never the empty list. -/
theorem run_command_zero_exit (command : List String) (pr : ProcResult)
    (h : pr.exitCode = 0) :
    (run_command command pr).1 = pySplitNl (pyStrip pr.stdout) ∧
    (run_command command pr).1 ≠ [] := by
  refine ⟨by simp [run_command, h], ?_⟩
  simp only [run_command, h, if_pos rfl, pySplitNl]
  intro hnil
  exact pySplitNlL_ne_nil _ (List.map_eq_nil_iff.mp hnil)

/-- On nonzero exit status, run_command returns the empty list. -/
theorem run_command_nonzero_exit_nil (command : List String)
    (pr : ProcResult) (h : pr.exitCode ≠ 0) :
    (run_command command pr).1 = [] := by
  simp [run_command, h]

/-- If every attempt in the window fails (nonzero exit status), the retry
loop consumes all its fuel and returns the empty list. -/
theorem run_tool_with_retriesAux_all_fail (command : List String)
    (procAttempts : Nat → ProcResult) :
    ∀ fuel i, (∀ j, j < fuel → (procAttempts (i + j)).exitCode ≠ 0) →
      run_tool_with_retriesAux command procAttempts i fuel = ([], i + fuel)
  | 0, i, _ => rfl
  | fuel + 1, i, h => by
    have h0 : (procAttempts i).exitCode ≠ 0 := by
      simpa using h 0 (Nat.succ_pos fuel)
    have hrest : ∀ j, j < fuel → (procAttempts (i + 1 + j)).exitCode ≠ 0 := by
      intro j hj
      have := h (j + 1) (Nat.succ_lt_succ hj)
      rwa [show i + (j + 1) = i + 1 + j by omega] at this
    simp only [run_tool_with_retriesAux,
      run_command_nonzero_exit_nil command _ h0, ne_eq, not_true_eq_false,
      if_false]
    rw [run_tool_with_retriesAux_all_fail command procAttempts fuel (i + 1)
      hrest]
    congr 1
    omega

/-- If the first k attempts in the window fail and attempt k succeeds
(exit status zero) with fuel to spare, the retry loop stops right there and
returns that attempt's run_command result. -/
theorem run_tool_with_retriesAux_first_success (command : List String)
    (procAttempts : Nat → ProcResult) :
    ∀ fuel i k, k < fuel →
      (∀ j, j < k → (procAttempts (i + j)).exitCode ≠ 0) →
      (procAttempts (i + k)).exitCode = 0 →
      run_tool_with_retriesAux command procAttempts i fuel =
        (pySplitNl (pyStrip (procAttempts (i + k)).stdout), i + k + 1)
  | 0, _, k, hk, _, _ => absurd hk (Nat.not_lt_zero k)
  | fuel + 1, i, 0, _, _, hk0 => by
    simp only [Nat.add_zero] at hk0 ⊢
    obtain ⟨heq, hne⟩ := run_command_zero_exit command (procAttempts i) hk0
    simp only [run_tool_with_retriesAux]
    rw [if_pos hne, heq]
  | fuel + 1, i, k + 1, hk, hfail, hsucc => by
    have h0 : (procAttempts i).exitCode ≠ 0 := by
      simpa using hfail 0 (Nat.succ_pos k)
    have hfail2 : ∀ j, j < k → (procAttempts (i + 1 + j)).exitCode ≠ 0 := by
      intro j hj
      have := hfail (j + 1) (Nat.succ_lt_succ hj)
      rwa [show i + (j + 1) = i + 1 + j by omega] at this
    have hsucc2 : (procAttempts (i + 1 + k)).exitCode = 0 := by
      rwa [show i + (k + 1) = i + 1 + k by omega] at hsucc
    simp only [run_tool_with_retriesAux,
      run_command_nonzero_exit_nil command _ h0, ne_eq, not_true_eq_false,
      if_false]
    rw [run_tool_with_retriesAux_first_success command procAttempts fuel
      (i + 1) k (Nat.lt_of_succ_lt_succ hk) hfail2 hsucc2]
    rw [show i + 1 + k = i + (k + 1) by omega]

/-- C2.  For every operation wrapped by run_tool_with_retries: if every
attempt fails (the external process exits nonzero, the only way an attempt
produces a falsy result), exactly MAX_RETRIES = 3 attempts are performed
and the empty list is returned, with no error raised past the retry
boundary (the function is total); if the first success occurs at zero-based
attempt index k < 3, the loop stops after exactly k + 1 attempts and
returns that attempt's run_command result. -/
theorem run_tool_with_retries_attempt_bounds (command : List String)
    (procAttempts : Nat → ProcResult) :
    ((∀ j, j < MAX_RETRIES → (procAttempts j).exitCode ≠ 0) →
      run_tool_with_retries command procAttempts = ([], MAX_RETRIES)) ∧
    (∀ k, k < MAX_RETRIES →
      (∀ j, j < k → (procAttempts j).exitCode ≠ 0) →
      (procAttempts k).exitCode = 0 →
      run_tool_with_retries command procAttempts =
        (pySplitNl (pyStrip (procAttempts k).stdout), k + 1)) := by
  constructor
  · intro h
    have := run_tool_with_retriesAux_all_fail command procAttempts
      MAX_RETRIES 0 (fun j hj => by simpa using h j hj)
    simpa [run_tool_with_retries] using this
  · intro k hk hfail hsucc
    have := run_tool_with_retriesAux_first_success command procAttempts
      MAX_RETRIES 0 k hk (fun j hj => by simpa using hfail j hj)
      (by simpa using hsucc)
    simpa [run_tool_with_retries] using this

/-- Witness for C2: with a first attempt failing and the second
succeeding with output x.d.com, the loop performs exactly 2 attempts. -/
theorem run_tool_with_retries_attempt_bounds_witness :
    run_tool_with_retries ["assetfinder", "--subs-only", "d.com"]
      (fun j => if j = 0 then ⟨1, ""⟩ else ⟨0, "x.d.com"⟩) =
      (["x.d.com"], 2) :=
  (run_tool_with_retries_attempt_bounds ["assetfinder", "--subs-only",
    "d.com"] (fun j => if j = 0 then ⟨1, ""⟩ else ⟨0, "x.d.com"⟩)).2 1
    (by decide) (fun j hj => by simp [Nat.lt_one_iff.mp hj]) rfl

/-- C1 counterexample.  A process attempt that exits zero with empty
standard output is NOT treated as a failure: strip-then-split of the empty
text is the singleton list containing the empty string, a truthy value, so
run_tool_with_retries returns it as a success after a single attempt
instead of retrying three times and reporting empty.  Likewise, a first
crt.sh attempt that succeeds with an empty record list is returned
immediately after one HTTP attempt, with self.subdomains unchanged, rather
than being retried to exhaustion and reported as the empty set. -/
theorem run_tool_with_retries_empty_success_not_retried :
    run_tool_with_retries ["subfinder", "-d", "d.com", "-silent"]
      (fun _ => ⟨0, ""⟩) = ([""], 1) ∧
    query_crtsh (fun _ => CrtshResponse.ok []) {"x.d.com"} =
      Except.ok ({"x.d.com"}, {"x.d.com"}, 1) := by
  constructor
  · decide
  · rfl

/-- C1 amended.  An attempt that succeeds structurally is never treated as
a failure, even when its payload is empty: a zero exit status on the first
attempt makes run_tool_with_retries return immediately after one attempt
with that attempt's stripped-and-split stdout (the singleton empty line
when stdout is empty), and a first crt.sh response that decodes to an
empty record list makes query_crtsh return immediately after one HTTP
attempt with self.subdomains unchanged.  Only a falsy result, produced
exactly by a nonzero exit status or by a transport error, is retried. -/
theorem empty_success_returned_first_attempt (command : List String)
    (procAttempts : Nat → ProcResult)
    (crtshAttempts : Nat → CrtshResponse) (subs : Finset String) :
    ((procAttempts 0).exitCode = 0 →
      run_tool_with_retries command procAttempts =
        (pySplitNl (pyStrip (procAttempts 0).stdout), 1)) ∧
    (crtshAttempts 0 = CrtshResponse.ok [] →
      query_crtsh crtshAttempts subs = Except.ok (subs, subs, 1)) := by
  constructor
  · intro h0
    have := run_tool_with_retriesAux_first_success command procAttempts
      MAX_RETRIES 0 0 (by decide) (fun j hj => absurd hj (Nat.not_lt_zero j))
      (by simpa using h0)
    simpa [run_tool_with_retries] using this
  · intro h0
    simp [query_crtsh, query_crtshAux, MAX_RETRIES, h0, crtshAddRecords]

/-- Witness for the amended C1. -/
theorem empty_success_returned_first_attempt_witness :
    run_tool_with_retries ["findomain", "-t", "d.com", "-q"]
      (fun _ => ⟨0, ""⟩) = ([""], 1) ∧
    query_crtsh (fun _ => CrtshResponse.ok []) ∅ =
      Except.ok (∅, ∅, 1) :=
  ⟨(empty_success_returned_first_attempt ["findomain", "-t", "d.com", "-q"]
      (fun _ => ⟨0, ""⟩) (fun _ => CrtshResponse.ok []) ∅).1 rfl,
    (empty_success_returned_first_attempt ["findomain", "-t", "d.com", "-q"]
      (fun _ => ⟨0, ""⟩) (fun _ => CrtshResponse.ok []) ∅).2 rfl⟩

/-- C5 counterexample.  With exit status zero and stdout containing a blank
interior line and a line with surrounding spaces, run_command returns an
empty-string element and an element with leading whitespace: the claim
that no returned element is empty and no element carries leading or
trailing whitespace fails. -/
theorem run_command_keeps_blank_and_untrimmed_lines :
    (run_command ["subfinder", "-d", "d.com", "-silent"]
      ⟨0, "a.d.com\n\n b.d.com "⟩).1 = ["a.d.com", "", " b.d.com"] ∧
    "" ∈ (run_command ["subfinder", "-d", "d.com", "-silent"]
      ⟨0, "a.d.com\n\n b.d.com "⟩).1 ∧
    " b.d.com" ∈ (run_command ["subfinder", "-d", "d.com", "-silent"]
      ⟨0, "a.d.com\n\n b.d.com "⟩).1 := by decide

/-- C5 amended.  For every process invocation that exits with status zero,
run_command returns the captured stdout with the whitespace of the whole
text stripped at both ends and then split at every newline: the result is
never empty, none of its elements contains a newline, and joining the
elements with newlines reconstructs the stripped stdout exactly.  Interior
blank lines are kept as empty-string elements and elements are not
individually trimmed (and an empty stdout yields the single empty line),
so elements may be empty or carry surrounding whitespace. -/
theorem run_command_splits_stripped_stdout (command : List String)
    (pr : ProcResult) (h : pr.exitCode = 0) :
    (run_command command pr).1 ≠ [] ∧
    pyJoinNl (run_command command pr).1 = pyStrip pr.stdout ∧
    ∀ l ∈ (run_command command pr).1, '\n' ∉ l.data := by
  obtain ⟨heq, hne⟩ := run_command_zero_exit command pr h
  refine ⟨hne, ?_, ?_⟩
  · rw [heq]
    show pyJoinNl ((pySplitNlL (pyStrip pr.stdout).data).map String.mk) =
      pyStrip pr.stdout
    rw [pyJoinNl, List.map_map, show String.data ∘ String.mk = id from rfl,
      List.map_id, pyJoinNlL_pySplitNlL]
  · intro l hl
    rw [heq] at hl
    simp only [pySplitNl, List.mem_map] at hl
    obtain ⟨l0, hl0, rfl⟩ := hl
    exact pySplitNlL_no_newline _ l0 hl0

/-- Witness for the amended C5. -/
theorem run_command_splits_stripped_stdout_witness :
    (run_command ["assetfinder", "--subs-only", "d.com"]
      ⟨0, " a.d.com\nb.d.com\n"⟩).1 ≠ [] ∧
    pyJoinNl (run_command ["assetfinder", "--subs-only", "d.com"]
      ⟨0, " a.d.com\nb.d.com\n"⟩).1 = pyStrip " a.d.com\nb.d.com\n" ∧
    ∀ l ∈ (run_command ["assetfinder", "--subs-only", "d.com"]
      ⟨0, " a.d.com\nb.d.com\n"⟩).1, '\n' ∉ l.data :=
  run_command_splits_stripped_stdout ["assetfinder", "--subs-only", "d.com"]
    ⟨0, " a.d.com\nb.d.com\n"⟩ rfl

/-- C6.  For every process invocation that exits with nonzero status,
run_command reports failure by returning the empty sequence, and its log
contains the diagnostic event carrying the failing command and the exit
status.  run_command is a total function into plain result values: within
the process-invocation interface (exit status plus captured stdout) the
only exception the body can raise, CalledProcessError, is caught inside
it, so no error escapes to its caller for any invocation. -/
theorem run_command_nonzero_exit_empty_and_logged (command : List String)
    (pr : ProcResult) (h : pr.exitCode ≠ 0) :
    (run_command command pr).1 = [] ∧
    LogEvent.commandFailed command pr.exitCode ∈ (run_command command pr).2 := by
  simp [run_command, h]

/-- Witness for C6. -/
theorem run_command_nonzero_exit_empty_and_logged_witness :
    (run_command ["findomain", "-t", "d.com", "-q"] ⟨2, "partial out"⟩).1
      = [] ∧
    LogEvent.commandFailed ["findomain", "-t", "d.com", "-q"] 2 ∈
      (run_command ["findomain", "-t", "d.com", "-q"] ⟨2, "partial out"⟩).2 :=
  run_command_nonzero_exit_empty_and_logged
    ["findomain", "-t", "d.com", "-q"] ⟨2, "partial out"⟩ (by decide)

/-- Processing crt.sh records only ever adds names to self.subdomains. -/
theorem crtshAddRecords_mono :
    ∀ (records : List CrtshRecord) (subs s : Finset String),
      crtshAddRecords subs records = Except.ok s → subs ⊆ s
  | [], subs, s, h => by
    simp only [crtshAddRecords] at h
    injection h with h
    exact h ▸ Finset.Subset.refl subs
  | r :: rs, subs, s, h => by
    simp only [crtshAddRecords] at h
    cases hr : r.name_value with
    | none => rw [hr] at h; exact absurd h (by simp)
    | some nv =>
      rw [hr] at h
      exact Finset.Subset.trans Finset.subset_union_left
        (crtshAddRecords_mono rs _ s h)

/-- The crt.sh retry loop only ever adds names to self.subdomains. -/
theorem query_crtshAux_mono (crtshAttempts : Nat → CrtshResponse) :
    ∀ (fuel i : Nat) (subs s r : Finset String) (n : Nat),
      query_crtshAux crtshAttempts subs i fuel = Except.ok (s, r, n) →
      subs ⊆ s
  | 0, i, subs, s, r, n, h => by
    simp only [query_crtshAux] at h
    injection h with h
    obtain ⟨h1, -⟩ := Prod.mk.injEq .. ▸ h
    exact h1 ▸ Finset.Subset.refl subs
  | fuel + 1, i, subs, s, r, n, h => by
    simp only [query_crtshAux] at h
    cases ha : crtshAttempts i with
    | transportError =>
      rw [ha] at h
      exact query_crtshAux_mono crtshAttempts fuel (i + 1) subs s r n h
    | ok records =>
      simp only [ha] at h
      cases hc : crtshAddRecords subs records with
      | error e => rw [hc] at h; exact absurd h (by simp)
      | ok subs2 =>
        simp only [hc] at h
        injection h with h
        obtain ⟨h1, -⟩ := Prod.mk.injEq .. ▸ h
        exact h1 ▸ crtshAddRecords_mono records subs subs2 hc

/-- C3.  The concrete discovery scenario: the three process sources yield
a.d.com, b.d.com and nothing (the third fails every attempt, exhausting
its retries), and the transparency log returns records whose name fields
are a.d.com and the two-line text c.d.com newline d.d.com; the resulting
candidate set is exactly the four names.  In general a source that fails
never removes or suppresses another source's contribution: each tool's
retry result is contained in the find_subdomains union, and query_crtsh
only ever adds to the set it is given. -/
theorem discovery_union_scenario :
    query_crtsh (fun _ => CrtshResponse.ok
        [⟨some "a.d.com"⟩, ⟨some "c.d.com\nd.d.com"⟩])
      (find_subdomains ∅ (fun _ => ⟨0, "a.d.com"⟩) (fun _ => ⟨0, "b.d.com"⟩)
        (fun _ => ⟨1, ""⟩) "d.com") =
      Except.ok ({"a.d.com", "b.d.com", "c.d.com", "d.d.com"},
        {"a.d.com", "b.d.com", "c.d.com", "d.d.com"}, 1) ∧
    (∀ (subs0 : Finset String) (o1 o2 o3 : Nat → ProcResult) (d : String),
      (run_tool_with_retries ["subfinder", "-d", d, "-silent"] o1).1.toFinset
          ⊆ find_subdomains subs0 o1 o2 o3 d ∧
      (run_tool_with_retries ["assetfinder", "--subs-only", d] o2).1.toFinset
          ⊆ find_subdomains subs0 o1 o2 o3 d ∧
      (run_tool_with_retries ["findomain", "-t", d, "-q"] o3).1.toFinset
          ⊆ find_subdomains subs0 o1 o2 o3 d) ∧
    (∀ (att : Nat → CrtshResponse) (subs s r : Finset String) (n : Nat),
      query_crtsh att subs = Except.ok (s, r, n) → subs ⊆ s) := by
  refine ⟨by decide, ?_, ?_⟩
  · intro subs0 o1 o2 o3 d
    refine ⟨?_, ?_, ?_⟩ <;> simp only [find_subdomains]
    · exact Finset.Subset.trans Finset.subset_union_right
        (Finset.Subset.trans Finset.subset_union_left
          Finset.subset_union_left)
    · exact Finset.Subset.trans Finset.subset_union_right
        Finset.subset_union_left
    · exact Finset.subset_union_right
  · intro att subs s r n h
    exact query_crtshAux_mono att MAX_RETRIES 0 subs s r n h

/-- Witness for C3's quantified parts at a concrete run: the crt.sh query
applied to a non-empty prior set only extends it. -/
theorem discovery_union_scenario_witness :
    (∅ : Finset String) ⊆ {"z.d.com"} :=
  discovery_union_scenario.2.2 (fun _ => CrtshResponse.ok [⟨some "z.d.com"⟩])
    ∅ {"z.d.com"} {"z.d.com"} 1 (by decide)

/-- Processing a record list in which every record carries the name field
never raises. -/
theorem crtshAddRecords_wellShaped :
    ∀ (records : List CrtshRecord) (subs : Finset String),
      (∀ r ∈ records, r.name_value ≠ none) →
      ∃ s, crtshAddRecords subs records = Except.ok s
  | [], subs, _ => ⟨subs, rfl⟩
  | r :: rs, subs, h => by
    cases hr : r.name_value with
    | none => exact absurd hr (h r (List.mem_cons_self r rs))
    | some nv =>
      obtain ⟨s, hs⟩ := crtshAddRecords_wellShaped rs
        (subs ∪ (pySplitNl nv).toFinset) (fun x hx => h x (List.mem_cons.mpr
          (Or.inr hx)))
      exact ⟨s, by simp only [crtshAddRecords, hr]; exact hs⟩

/-- With well-shaped responses on every attempt, the crt.sh retry loop
always terminates normally. -/
theorem query_crtshAux_wellShaped (crtshAttempts : Nat → CrtshResponse)
    (hw : ∀ j, CrtshWellShaped (crtshAttempts j)) :
    ∀ (fuel i : Nat) (subs : Finset String),
      ∃ out, query_crtshAux crtshAttempts subs i fuel = Except.ok out
  | 0, i, subs => ⟨(subs, ∅, i), rfl⟩
  | fuel + 1, i, subs => by
    cases ha : crtshAttempts i with
    | transportError =>
      obtain ⟨out, hout⟩ := query_crtshAux_wellShaped crtshAttempts hw fuel
        (i + 1) subs
      exact ⟨out, by simp only [query_crtshAux, ha]; exact hout⟩
    | ok records =>
      have hrec : ∀ r ∈ records, r.name_value ≠ none := by
        have := hw i
        rwa [ha] at this
      obtain ⟨s, hs⟩ := crtshAddRecords_wellShaped records subs hrec
      exact ⟨(s, s, i + 1), by simp only [query_crtshAux, ha, hs]⟩

/-- C4 counterexample.  With all three tools succeeding, httpx succeeding
and the output file writable, a single crt.sh response whose record lacks
the name field makes the whole run abort with an uncaught KeyError before
the liveness and result-writing stages: this parse failure is not
recovered at the component where it occurs. -/
theorem crtsh_malformed_record_aborts_run :
    mainRun ⟨fun _ => ⟨0, "a.d.com"⟩, fun _ => ⟨0, "a.d.com"⟩,
        fun _ => ⟨0, "a.d.com"⟩, fun _ => CrtshResponse.ok [⟨none⟩],
        ⟨0, "a.d.com"⟩, true⟩ "d.com" =
      Except.error PyError.keyError := by decide

/-- With well-shaped transparency responses on every attempt, mainRun is
the save stage applied to the liveness result: no earlier stage aborts. -/
theorem mainRun_reaches_save (env : RunEnv) (domain : String)
    (hw : ∀ j, CrtshWellShaped (env.crtshAttempts j)) :
    ∃ subs2, mainRun env domain =
      save_live_domains domain
        (check_live_domains subs2 env.httpxResult).2 env.writeOk := by
  obtain ⟨⟨s, r, n⟩, hq⟩ := query_crtshAux_wellShaped env.crtshAttempts hw
    MAX_RETRIES 0 (find_subdomains ∅ env.subfinderAttempts
      env.assetfinderAttempts env.findomainAttempts domain)
  refine ⟨s, ?_⟩
  simp only [mainRun, query_crtsh, hq]

/-- C4 amended.  Process failures, transport failures and malformed bodies
raised as RequestException are recovered locally after exhausting the
applicable retry budget, and such a run always reaches the liveness and
result-writing stages whatever the process and httpx outcomes; but a
successfully decoded crt.sh response of unexpected shape (a record missing
the name field) raises an uncaught KeyError that aborts the run before
those stages. -/
theorem run_reaches_writer_with_wellformed_crtsh (env : RunEnv)
    (domain : String) (hw : ∀ j, CrtshWellShaped (env.crtshAttempts j)) :
    ∃ subs2, mainRun env domain =
      save_live_domains domain
        (check_live_domains subs2 env.httpxResult).2 env.writeOk :=
  mainRun_reaches_save env domain hw

/-- Witness for the amended C4: every source and the transparency log fail
on every attempt, yet the run reaches the writer. -/
theorem run_reaches_writer_with_wellformed_crtsh_witness :
    ∃ subs2, mainRun ⟨fun _ => ⟨1, ""⟩, fun _ => ⟨1, ""⟩, fun _ => ⟨1, ""⟩,
        fun _ => CrtshResponse.transportError, ⟨0, ""⟩, true⟩ "d.com" =
      save_live_domains "d.com"
        (check_live_domains subs2 ⟨0, ""⟩).2 true :=
  run_reaches_writer_with_wellformed_crtsh
    ⟨fun _ => ⟨1, ""⟩, fun _ => ⟨1, ""⟩, fun _ => ⟨1, ""⟩,
      fun _ => CrtshResponse.transportError, ⟨0, ""⟩, true⟩ "d.com"
    (fun _ => trivial)

/-- C8 counterexample.  A run whose output file is perfectly writable
still ends abnormally: with every discovery tool failing and one
ill-shaped crt.sh record, the run ends with a KeyError, which is not the
persistence failure — so persistence failure is not the only failure
category that surfaces as a run-ending condition. -/
theorem nonpersistence_error_ends_run :
    mainRun ⟨fun _ => ⟨1, ""⟩, fun _ => ⟨1, ""⟩, fun _ => ⟨1, ""⟩,
        fun _ => CrtshResponse.ok [⟨none⟩], ⟨0, ""⟩, true⟩ "d.com" =
      Except.error PyError.keyError ∧
    PyError.keyError ≠ PyError.ioError := by decide

/-- C8 amended.  A failure to open or write the output file in
save_live_domains is propagated, not swallowed, and ends the run, while
process and transport failures in discovery and liveness are recovered
without ending it (with digestible crt.sh responses the run ends in the
write error exactly when the file is unwritable, and otherwise completes);
but it is not the only run-ending failure category: an unexpectedly-shaped
transparency-log record also ends the run. -/
theorem persistence_failure_propagates (env : RunEnv) (domain : String)
    (hw : ∀ j, CrtshWellShaped (env.crtshAttempts j)) :
    (env.writeOk = false →
      mainRun env domain = Except.error PyError.ioError) ∧
    (env.writeOk = true → ∃ out, mainRun env domain = Except.ok out) := by
  obtain ⟨subs2, hmain⟩ := mainRun_reaches_save env domain hw
  constructor
  · intro hfail
    rw [hmain, save_live_domains, hfail]
    simp
  · intro hok
    rw [hmain, save_live_domains, hok]
    simp only [if_pos rfl]
    exact ⟨_, rfl⟩

/-- Witness for the amended C8: an unwritable destination ends the run
with the write error even though every discovery source succeeded. -/
theorem persistence_failure_propagates_witness :
    mainRun ⟨fun _ => ⟨0, "a.d.com"⟩, fun _ => ⟨0, "a.d.com"⟩,
        fun _ => ⟨0, "a.d.com"⟩, fun _ => CrtshResponse.transportError,
        ⟨0, "a.d.com"⟩, false⟩ "d.com" = Except.error PyError.ioError :=
  (persistence_failure_propagates ⟨fun _ => ⟨0, "a.d.com"⟩,
      fun _ => ⟨0, "a.d.com"⟩, fun _ => ⟨0, "a.d.com"⟩,
      fun _ => CrtshResponse.transportError, ⟨0, "a.d.com"⟩, false⟩ "d.com"
    (fun _ => trivial)).1 rfl

/-- C7.  For every candidate set, check_live_domains performs exactly one
httpx invocation, whose input payload is the newline join of all the
names — no chunking and no retry; whenever httpx exits with nonzero
status the resulting live set is empty, and a full run in that situation
(with digestible crt.sh responses and a writable destination) still
proceeds to persist the empty result, writing an empty file instead of
aborting. -/
theorem check_live_single_invocation_and_failure_empty
    (subs : Finset String) (pr : ProcResult) (env : RunEnv)
    (domain : String) :
    (check_live_domains subs pr).1 = [pyJoinNl (candidateList subs)] ∧
    (pr.exitCode ≠ 0 → (check_live_domains subs pr).2 = ∅) ∧
    (env.httpxResult.exitCode ≠ 0 →
      (∀ j, CrtshWellShaped (env.crtshAttempts j)) → env.writeOk = true →
      mainRun env domain =
        Except.ok (domain ++ "_live_domains.txt", "")) := by
  refine ⟨?_, ?_, ?_⟩
  · by_cases h : pr.exitCode = 0 <;> simp [check_live_domains, h]
  · intro h
    simp [check_live_domains, h]
  · intro hhx hw hok
    obtain ⟨subs2, hmain⟩ := mainRun_reaches_save env domain hw
    rw [hmain]
    have hempty : (check_live_domains subs2 env.httpxResult).2 = ∅ := by
      simp [check_live_domains, hhx]
    rw [hempty, save_live_domains, hok]
    simp only [if_pos rfl]
    rfl

/-- Witness for C7: httpx fails on a run whose discovery found names, and
the run still writes the (empty) output file. -/
theorem check_live_single_invocation_and_failure_empty_witness :
    mainRun ⟨fun _ => ⟨0, "a.d.com"⟩, fun _ => ⟨0, "b.d.com"⟩,
        fun _ => ⟨1, ""⟩, fun _ => CrtshResponse.transportError,
        ⟨7, ""⟩, true⟩ "d.com" =
      Except.ok ("d.com_live_domains.txt", "") :=
  (check_live_single_invocation_and_failure_empty ∅ ⟨1, ""⟩
    ⟨fun _ => ⟨0, "a.d.com"⟩, fun _ => ⟨0, "b.d.com"⟩, fun _ => ⟨1, ""⟩,
      fun _ => CrtshResponse.transportError, ⟨7, ""⟩, true⟩ "d.com").2.2
    (by decide) (fun _ => trivial) rfl

/-- The sorted view of a set is sorted under the Python string order. -/
theorem sortedList_sorted (s : Finset String) :
    List.Sorted pyLe (sortedList s) := by
  rcases s with ⟨m, hm⟩
  revert hm
  induction m using Quotient.inductionOn with
  | h l => exact fun _ => List.sorted_insertionSort pyLe l

/-- The sorted view of a set has exactly the set's members. -/
theorem mem_sortedList (s : Finset String) (x : String) :
    x ∈ sortedList s ↔ x ∈ s := by
  rcases s with ⟨m, hm⟩
  revert hm
  induction m using Quotient.inductionOn with
  | h l =>
    intro hm
    constructor
    · intro hx
      exact Finset.mem_mk.mpr (Multiset.mem_coe.mpr
        ((List.perm_insertionSort pyLe l).mem_iff.mp hx))
    · intro hx
      exact (List.perm_insertionSort pyLe l).mem_iff.mpr
        (Multiset.mem_coe.mp (Finset.mem_mk.mp hx))

/-- The sorted view of a set has no duplicate entries. -/
theorem sortedList_nodup (s : Finset String) : (sortedList s).Nodup := by
  rcases s with ⟨m, hm⟩
  revert hm
  induction m using Quotient.inductionOn with
  | h l =>
    intro hm
    exact (List.perm_insertionSort pyLe l).nodup_iff.mpr
      (Multiset.coe_nodup.mp hm)

/-- Splitting after a leading newline. -/
theorem pySplitlinesL_newline (t : List Char) :
    pySplitlinesL ('\n' :: t) = [] :: pySplitlinesL t := by
  simp [pySplitlinesL]

/-- Splitting after a leading character that is not a line boundary. -/
theorem pySplitlinesL_other (c : Char) (t : List Char) (h1 : c ≠ '\n')
    (h2 : c ≠ '\r') :
    pySplitlinesL (c :: t) = match pySplitlinesL t with
      | [] => [[c]]
      | l :: ls => (c :: l) :: ls := by
  simp [pySplitlinesL, h1, h2]

/-- A newline-terminated line without interior line boundaries splits off
whole. -/
theorem pySplitlinesL_line_append (l rest : List Char) (h1 : '\n' ∉ l)
    (h2 : '\r' ∉ l) :
    pySplitlinesL (l ++ '\n' :: rest) = l :: pySplitlinesL rest := by
  induction l with
  | nil => rw [List.nil_append, pySplitlinesL_newline]
  | cons c cs ih =>
    have hc1 : c ≠ '\n' := by
      intro h
      subst h
      exact h1 (List.mem_cons_self _ _)
    have hc2 : c ≠ '\r' := by
      intro h
      subst h
      exact h2 (List.mem_cons_self _ _)
    have hcs1 : '\n' ∉ cs := fun h => h1 (List.mem_cons.mpr (Or.inr h))
    have hcs2 : '\r' ∉ cs := fun h => h2 (List.mem_cons.mpr (Or.inr h))
    rw [List.cons_append, pySplitlinesL_other c _ hc1 hc2, ih hcs1 hcs2]

/-- Splitting the written file content by lines recovers the written
entries, provided no entry contains a line boundary. -/
theorem pySplitlinesL_writeLinesL :
    ∀ ls : List (List Char), (∀ l ∈ ls, '\n' ∉ l ∧ '\r' ∉ l) →
      pySplitlinesL (writeLinesL ls) = ls
  | [], _ => rfl
  | l :: ls, h => by
    have hl := h l (List.mem_cons_self l ls)
    show pySplitlinesL (l ++ '\n' :: writeLinesL ls) = l :: ls
    rw [pySplitlinesL_line_append l _ hl.1 hl.2,
      pySplitlinesL_writeLinesL ls
        (fun x hx => h x (List.mem_cons.mpr (Or.inr hx)))]

/-- C9.  For every domain and live set, save_live_domains writes to the
file named by the domain concatenated with the fixed suffix, and the
content is exactly the live entries in ascending Python (code-point
lexicographic) string order, each entry written once and followed by a
newline: the written sequence is sorted, duplicate-free, and carries
precisely the members of the live set, and splitting the file content back
into lines recovers that sorted sequence (for entries without interior
line boundaries).  The file is opened in write mode, so any prior content
is replaced by this content, which is a function of the domain and the
live set alone. -/
theorem save_live_domains_sorted_lines (domain : String)
    (live : Finset String) :
    save_live_domains domain live true = Except.ok
      (domain ++ "_live_domains.txt",
        ⟨writeLinesL ((sortedList live).map String.data)⟩) ∧
    List.Sorted pyLe (sortedList live) ∧
    (sortedList live).Nodup ∧
    (∀ x, x ∈ sortedList live ↔ x ∈ live) ∧
    ((∀ x ∈ live, '\n' ∉ x.data ∧ '\r' ∉ x.data) →
      pySplitlines ⟨writeLinesL ((sortedList live).map String.data)⟩ =
        sortedList live) := by
  refine ⟨by simp [save_live_domains], sortedList_sorted live,
    sortedList_nodup live, fun x => mem_sortedList live x, ?_⟩
  intro h
  have hmem : ∀ l ∈ (sortedList live).map String.data,
      '\n' ∉ l ∧ '\r' ∉ l := by
    intro l hl
    rw [List.mem_map] at hl
    obtain ⟨x, hx, rfl⟩ := hl
    exact h x ((mem_sortedList live x).mp hx)
  rw [pySplitlines, data_mk, pySplitlinesL_writeLinesL _ hmem,
    List.map_map, show String.mk ∘ String.data = id from rfl, List.map_id]

/-- Witness for C9 at a concrete two-element live set. -/
theorem save_live_domains_sorted_lines_witness :
    pySplitlines ⟨writeLinesL ((sortedList
        ({"b.d.com", "a.d.com"} : Finset String)).map String.data)⟩ =
      sortedList ({"b.d.com", "a.d.com"} : Finset String) :=
  (save_live_domains_sorted_lines "d.com" {"b.d.com", "a.d.com"}).2.2.2.2
    (by decide)

/-- Membership in the folded union of result lists. -/
theorem mem_foldl_update (x : String) :
    ∀ (results : List (List String)) (acc : Finset String),
      (x ∈ results.foldl (fun a r => a ∪ r.toFinset) acc ↔
        x ∈ acc ∨ ∃ r ∈ results, x ∈ r)
  | [], acc => by simp
  | r :: rs, acc => by
    rw [List.foldl_cons, mem_foldl_update x rs]
    simp only [Finset.mem_union, List.mem_toFinset, List.mem_cons]
    constructor
    · rintro ((h | h) | ⟨r2, hr2, hx⟩)
      · exact Or.inl h
      · exact Or.inr ⟨r, Or.inl rfl, h⟩
      · exact Or.inr ⟨r2, Or.inr hr2, hx⟩
    · rintro (h | ⟨r2, (rfl | hr2), hx⟩)
      · exact Or.inl (Or.inl h)
      · exact Or.inl (Or.inr hx)
      · exact Or.inr ⟨r2, hr2, hx⟩

/-- A name is in the merged candidate set exactly when some source result
reported it. -/
theorem mem_mergeResults (x : String) (results : List (List String)) :
    x ∈ mergeResults results ↔ ∃ r ∈ results, x ∈ r := by
  rw [mergeResults, mem_foldl_update]
  simp

/-- C10.  Merging source results into the candidate set is idempotent and
commutative: merging the same source result twice yields the same
candidate set as merging it once, and merging any collection of source
results in any order (any permutation) yields the same final set; two
sources that both report exactly a.example.com contribute a single
occurrence, so the merged set is the singleton with cardinality one. -/
theorem merge_idempotent_commutative_dedup :
    (∀ (rs : List (List String)) (r : List String),
      mergeResults (rs ++ [r, r]) = mergeResults (rs ++ [r])) ∧
    (∀ rs1 rs2 : List (List String), rs1.Perm rs2 →
      mergeResults rs1 = mergeResults rs2) ∧
    mergeResults [["a.example.com"], ["a.example.com"]] =
      {"a.example.com"} ∧
    (mergeResults [["a.example.com"], ["a.example.com"]]).card = 1 := by
  refine ⟨?_, ?_, by decide, by decide⟩
  · intro rs r
    ext x
    simp only [mem_mergeResults, List.mem_append, List.mem_cons,
      List.mem_singleton, List.not_mem_nil, or_false]
    constructor
    · rintro ⟨r2, (h | h | h), hx⟩
      · exact ⟨r2, Or.inl h, hx⟩
      · exact ⟨r2, Or.inr h, hx⟩
      · exact ⟨r2, Or.inr h, hx⟩
    · rintro ⟨r2, (h | h), hx⟩
      · exact ⟨r2, Or.inl h, hx⟩
      · exact ⟨r2, Or.inr (Or.inl h), hx⟩
  · intro rs1 rs2 hperm
    ext x
    simp only [mem_mergeResults]
    constructor
    · rintro ⟨r, hr, hx⟩
      exact ⟨r, hperm.mem_iff.mp hr, hx⟩
    · rintro ⟨r, hr, hx⟩
      exact ⟨r, hperm.mem_iff.mpr hr, hx⟩

/-- Witness for C10's permutation part: swapping two source results leaves
the merged candidate set unchanged. -/
theorem merge_idempotent_commutative_dedup_witness :
    mergeResults [["a.example.com"], ["b.example.com"]] =
      mergeResults [["b.example.com"], ["a.example.com"]] :=
  merge_idempotent_commutative_dedup.2.1
    [["a.example.com"], ["b.example.com"]]
    [["b.example.com"], ["a.example.com"]]
    (List.Perm.swap ["b.example.com"] ["a.example.com"] [])
